import Mathlib

/-!
Verification of the dropslot latest-only publish/subscribe bus.

Shallow embedding of the core (src/topic.rs, src/sub.rs, src/bus.rs,
src/error.rs) as pure Lean functions over explicit state.  Machine
integers are modelled as `Nat` with the u64 saturation points written
out explicitly (the code uses a guarded `fetch_add`, never wrapping).
-/

namespace Dropslot

/-- The value `u64::MAX`. -/
def UMAX : Nat := 2 ^ 64 - 1

/-- The value `usize::MAX` (64-bit target). -/
def USIZE_MAX : Nat := 2 ^ 64 - 1

/-- Error type from src/error.rs: `enum BusError { TryRecv { empty, disconnected } }`. -/
inductive BusError where
  | TryRecv (empty : Bool) (disconnected : Bool)
deriving DecidableEq, Repr

/-- Rust `BusError::message_queue_empty()`. -/
def BusError.message_queue_empty : BusError := .TryRecv true false

/-- Rust `BusError::topic_disconnected()`. -/
def BusError.topic_disconnected : BusError := .TryRecv false true

/-- Rust `BusError::is_disconnected`. -/
def BusError.is_disconnected : BusError → Bool
  | .TryRecv _ d => d

/-- Rust `BusError::is_empty`: matches on the `empty` field. -/
def BusError.is_empty : BusError → Bool
  | .TryRecv e _ => e

/-- A topic (src/topic.rs): the watch channel's current value (`None` before
any publish), the immutable name, and the `AtomicU64` version counter. -/
structure Topic (T : Type) where
  slot : Option T
  name : String
  version : Nat
deriving Repr, DecidableEq

namespace Topic

/-- Rust `Topic::new`: empty channel value, version 0. -/
def new (T : Type) (name : String) : Topic T :=
  { slot := none, name := name, version := 0 }

/-- Rust `Topic::get_current_version`. -/
def get_current_version (t : Topic T) : Nat := t.version

/-- Rust `Topic::increment_version`: saturating at `u64::MAX` (the `fetch_add`
runs only under the `current < u64::MAX` guard, so it never wraps). -/
def increment_version (t : Topic T) : Topic T :=
  if t.version < UMAX then { t with version := t.version + 1 } else t

/-- Rust `Topic::publish`:
`let _ = self.sender.send(Some(message)); self.increment_version();`.
`watch::Sender::send` stores the value only when at least one receiver is
alive; with zero receivers it fails and the value is discarded, and the
`let _` drops that error.  `receivers` is the channel's
`receiver_count()`, one per live `Sub` (`Topic::new` drops its own
initial receiver).  The version is incremented either way. -/
def publish (t : Topic T) (receivers : Nat) (message : T) : Topic T :=
  increment_version { t with slot := if 0 < receivers then some message else t.slot }

/-- A sequence of publishes with no intervening reads; each pair carries
the receiver count alive at that publish and the message. -/
def publishSeq (t : Topic T) (ps : List (Nat × T)) : Topic T :=
  ps.foldl (fun acc p => acc.publish p.1 p.2) t

end Topic

/-- The ownership-relevant part of a subscriber (src/sub.rs): whether
`cached_topic` is `Some`, and how many strong references to the topic are
held by parties other than this subscriber's cache (the registry entry,
user-held `Arc`s, other subscribers' caches).  `Arc::strong_count` of the
cached reference is `othersStrong + 1`; upgrading the weak back-reference
succeeds iff some strong owner remains. -/
structure SubRef where
  cached : Bool
  othersStrong : Nat
deriving DecidableEq, Repr

/-- Rust `Sub::get_or_refresh_topic`: clear the cache when it is the sole strong
owner, then use it if still present, else try to upgrade the weak
back-reference (repopulating the cache on success).  Returns whether a
topic handle was obtained, together with the updated reference state. -/
def get_or_refresh_topic (s : SubRef) : Bool × SubRef :=
  let shouldClear := s.cached && decide (s.othersStrong + 1 ≤ 1)
  let s1 := if shouldClear then { s with cached := false } else s
  if s1.cached then
    (true, s1)
  else if 0 < s1.othersStrong then
    (true, { s1 with cached := true })
  else
    (false, s1)

/-- A subscriber's state (src/sub.rs `Sub`): the cursor
`last_seen_version`, the watch receiver's view of the channel value
(`receiver.borrow()`, which stays readable even after the topic is gone),
the ownership state of `topic_ref`/`cached_topic`, and the live topic's
version as seen through a resolved handle. -/
structure SubState (T : Type) where
  topic_name : String
  last_seen_version : Nat
  slotView : Option T
  ref : SubRef
  liveVersion : Nat
deriving Repr, DecidableEq

/-- Rust `Topic::subscribe` (src/topic.rs): capture the current version as the
new subscriber's baseline, hand it the receiver and a cached strong
reference.  `others` is the number of strong references held outside the
new subscriber's cache; the caller invokes this through an `&Arc<Self>`,
so in any real call `1 ≤ others`. -/
def Topic.subscribe (t : Topic T) (others : Nat) : SubState T :=
  { topic_name := t.name
  , last_seen_version := t.get_current_version
  , slotView := t.slot
  , ref := { cached := true, othersStrong := others }
  , liveVersion := t.version }

namespace Sub

/-- The success condition of `Sub::try_get_message_impl`:
`current_version > last_seen || (current_version == u64::MAX && last_seen < u64::MAX)`. -/
def freshCond (current last_seen : Nat) : Prop :=
  current > last_seen ∨ (current = UMAX ∧ last_seen < UMAX)

instance (current last_seen : Nat) : Decidable (freshCond current last_seen) := by
  unfold freshCond; infer_instance

/-- Rust `Sub::try_get_message_impl`: resolve the topic (possibly clearing the
cache), compare the live version with the cursor, and on success advance
the cursor and return the transformed channel value. -/
def try_get_message_impl (transform : T → R) (s : SubState T) :
    Except BusError (Option R) × SubState T :=
  match get_or_refresh_topic s.ref with
  | (true, ref1) =>
      if freshCond s.liveVersion s.last_seen_version then
        (Except.ok (s.slotView.map transform),
          { s with ref := ref1, last_seen_version := s.liveVersion })
      else
        (Except.error BusError.message_queue_empty, { s with ref := ref1 })
  | (false, ref1) =>
      (Except.error BusError.topic_disconnected, { s with ref := ref1 })

/-- Rust `Sub::try_get_message`: the impl with the cloning transform. -/
def try_get_message (s : SubState T) : Except BusError (Option T) × SubState T :=
  try_get_message_impl id s

/-- Rust `Sub::try_get_message_and_apply`. -/
def try_get_message_and_apply (f : T → R) (s : SubState T) :
    Except BusError (Option R) × SubState T :=
  try_get_message_impl f s

/-- Rust `Sub::get_latest`: `self.receiver.borrow().clone()`; a `&self` method,
so the subscriber state is returned unchanged. -/
def get_latest (s : SubState T) : Option T × SubState T :=
  (s.slotView, s)

/-- Rust `Sub::get_latest_with`: `borrow().as_ref().map(f)`; `&self`. -/
def get_latest_with (f : T → R) (s : SubState T) : Option R × SubState T :=
  (s.slotView.map f, s)

/-- Rust `Sub::has_latest`: `self.receiver.borrow().is_some()`; `&self`. -/
def has_latest (s : SubState T) : Bool × SubState T :=
  (s.slotView.isSome, s)

end Sub

/-- A registry entry (src/bus.rs): the topic together with its live
subscriber count (`watch::Sender::receiver_count`, derived from the live
`Sub` handles). -/
structure BusEntry (T : Type) where
  topic : Topic T
  subscriberCount : Nat
deriving Repr, DecidableEq

/-- The registry `Bus` (src/bus.rs): a name-keyed concurrent map, modelled
as an association list with unique keys. -/
structure Bus (T : Type) where
  topics : List (String × BusEntry T)
deriving Repr

namespace Bus

/-- Map lookup on the association list. -/
def lookupTopic (l : List (String × BusEntry T)) (name : String) :
    Option (BusEntry T) :=
  match l with
  | [] => none
  | p :: rest => if p.1 = name then some p.2 else lookupTopic rest name

/-- Rust `Bus::remove_topic`: `self.topics.remove(&key).map(|(_, topic)| topic.subscriber_count())`. -/
def remove_topic (b : Bus T) (name : String) : Option Nat × Bus T :=
  match lookupTopic b.topics name with
  | some e => (some e.subscriberCount, ⟨b.topics.filter (fun p => !(p.1 == name))⟩)
  | none => (none, b)

/-- A `usize` saturating add of one, as in `removed_count.saturating_add(1)`. -/
def satSucc (n : Nat) : Nat := min (n + 1) USIZE_MAX

/-- The retain loop of `Bus::cleanup_unused_topics`: drop entries with zero
subscribers, accumulating the removal count with saturating addition. -/
def cleanupGo (l : List (String × BusEntry T)) (acc : Nat) :
    Nat × List (String × BusEntry T) :=
  match l with
  | [] => (acc, [])
  | p :: rest =>
      if p.2.subscriberCount = 0 then
        cleanupGo rest (satSucc acc)
      else
        let r := cleanupGo rest acc
        (r.1, p :: r.2)

/-- Rust `Bus::cleanup_unused_topics`. -/
def cleanup_unused_topics (b : Bus T) : Nat × Bus T :=
  let r := cleanupGo b.topics 0
  (r.1, ⟨r.2⟩)

end Bus

/-- A subscriber as stored in the whole-system model: only its cursor
(the channel view and liveness are shared with the topic). -/
structure WSub where
  last_seen_version : Nat
deriving Repr, DecidableEq

/-- A single-topic world for reasoning about states reachable through the
public API: the live topic plus every subscriber's cursor.  (Distinct
topics never interact, so one topic suffices.) -/
structure World (T : Type) where
  topic : Topic T
  subs : List WSub
deriving Repr

namespace World

/-- The `SubState` a connected subscriber of this world observes: the
receiver's view is the topic's channel value, the live version is the
topic's version, and the registry keeps one strong reference besides the
subscriber's cache. -/
def subView (w : World T) (s : WSub) : SubState T :=
  { topic_name := w.topic.name
  , last_seen_version := s.last_seen_version
  , slotView := w.topic.slot
  , ref := { cached := true, othersStrong := 1 }
  , liveVersion := w.topic.version }

/-- Effect of subscriber `i` running `try_get_message` on the world: only
that subscriber's cursor can change. -/
def tryRead (w : World T) (i : Nat) : World T :=
  match w.subs.get? i with
  | some s =>
      let s1 := (Sub.try_get_message (w.subView s)).2
      { w with subs := w.subs.set i ⟨s1.last_seen_version⟩ }
  | none => w

/-- States reachable through the public API while the topic resolves:
create a topic, publish (the live receiver count is one per current
subscriber), subscribe, drop a subscriber, and non-blocking reads.  An
`Ok` result is only ever produced on a resolved topic, so worlds where
resolution fails are irrelevant to what `Ok` carries. -/
inductive Reachable : World T → Prop
  | init (name : String) : Reachable ⟨Topic.new T name, []⟩
  | publish {w : World T} (m : T) :
      Reachable w → Reachable ⟨w.topic.publish w.subs.length m, w.subs⟩
  | subscribe {w : World T} :
      Reachable w →
      Reachable ⟨w.topic, ⟨w.topic.get_current_version⟩ :: w.subs⟩
  | dropSub {w : World T} (i : Nat) :
      Reachable w → Reachable ⟨w.topic, w.subs.eraseIdx i⟩
  | tryRead {w : World T} (i : Nat) :
      Reachable w → Reachable (w.tryRead i)

end World

/-! ### Helper lemmas shared by the claim theorems -/

/-- While some other strong owner remains, `get_or_refresh_topic` resolves
and ends with a populated cache and the same outside ownership. -/
lemma get_or_refresh_live (r : SubRef) (h : 1 ≤ r.othersStrong) :
    get_or_refresh_topic r = (true, ⟨true, r.othersStrong⟩) := by
  rcases r with ⟨c, k⟩
  have hk0 : ¬ k = 0 := by
    have hk : 1 ≤ k := h
    omega
  have hkpos : 0 < k := Nat.pos_of_ne_zero hk0
  cases c <;> simp [get_or_refresh_topic, hk0, hkpos]

/-- Once no other strong owner remains, `get_or_refresh_topic` clears the
cache and fails to resolve. -/
lemma get_or_refresh_dead (r : SubRef) (h : r.othersStrong = 0) :
    get_or_refresh_topic r = (false, ⟨false, 0⟩) := by
  rcases r with ⟨c, k⟩
  subst h
  cases c <;> simp [get_or_refresh_topic]

/-- A successful non-blocking read returns the channel view (transformed)
and requires the freshness condition. -/
lemma try_ok_elim {T R : Type} {f : T → R} {s : SubState T} {r : Option R}
    (h : (Sub.try_get_message_impl f s).1 = Except.ok r) :
    r = s.slotView.map f ∧ Sub.freshCond s.liveVersion s.last_seen_version := by
  rcases hg : get_or_refresh_topic s.ref with ⟨b, ref1⟩
  cases b
  · simp [Sub.try_get_message_impl, hg] at h
  · by_cases hc : Sub.freshCond s.liveVersion s.last_seen_version
    · simp [Sub.try_get_message_impl, hg, hc] at h
      exact ⟨h.symm, hc⟩
    · simp [Sub.try_get_message_impl, hg, hc] at h

/-- `increment_version` touches only the version field. -/
lemma increment_version_slot (t : Topic T) :
    (t.increment_version).slot = t.slot := by
  unfold Topic.increment_version
  split <;> rfl

/-- `publish` stores the message exactly when a receiver is alive. -/
lemma publish_slot (t : Topic T) (k : Nat) (m : T) :
    (t.publish k m).slot = if 0 < k then some m else t.slot := by
  unfold Topic.publish
  rw [increment_version_slot]

/-- `publish` never decreases the version, whatever the receiver count. -/
lemma publish_version_le (t : Topic T) (k : Nat) (m : T) :
    t.version ≤ (t.publish k m).version := by
  simp only [Topic.publish, Topic.increment_version]
  split <;> simp

/-- After a publish sequence whose last publish had a live receiver, the
channel holds exactly the last message. -/
lemma publishSeq_slot_last (t : Topic T) (ps : List (Nat × T)) (h : ps ≠ [])
    (hlast : 1 ≤ (ps.getLast h).1) :
    (t.publishSeq ps).slot = some (ps.getLast h).2 := by
  induction ps generalizing t with
  | nil => exact absurd rfl h
  | cons p rest ih =>
    cases rest with
    | nil =>
      have hp : 0 < p.1 := hlast
      have hone : Topic.publishSeq t [p] = t.publish p.1 p.2 := rfl
      have hg : [p].getLast h = p := rfl
      rw [hone, publish_slot, if_pos hp, hg]
    | cons q rest2 =>
      have hstep : Topic.publishSeq t (p :: q :: rest2)
          = Topic.publishSeq (t.publish p.1 p.2) (q :: rest2) := rfl
      have hl : 1 ≤ ((q :: rest2).getLast (by simp)).1 := hlast
      rw [hstep]
      exact ih (t.publish p.1 p.2) (by simp) hl

/-- The cursor after a non-blocking read is either unchanged or set to the
live version. -/
lemma try_cursor_cases (f : T → R) (s : SubState T) :
    (Sub.try_get_message_impl f s).2.last_seen_version = s.last_seen_version
    ∨ (Sub.try_get_message_impl f s).2.last_seen_version = s.liveVersion := by
  rcases hg : get_or_refresh_topic s.ref with ⟨b, ref1⟩
  cases b
  · left
    simp [Sub.try_get_message_impl, hg]
  · by_cases hc : Sub.freshCond s.liveVersion s.last_seen_version
    · right
      simp [Sub.try_get_message_impl, hg, hc]
    · left
      simp [Sub.try_get_message_impl, hg, hc]

/-- `World.tryRead` never changes the topic. -/
lemma tryRead_topic (w : World T) (i : Nat) :
    (w.tryRead i).topic = w.topic := by
  unfold World.tryRead
  split <;> rfl

/-- In every API-reachable world, each live subscriber's cursor is at most
the live version, and if the version is strictly ahead of the cursor then
a message has been stored in the channel (a version advance past a live
subscriber's cursor can only come from a publish made while that
subscriber's receiver was alive, and such a publish stores). -/
lemma reachable_cursor_slot_inv {T : Type} {w : World T}
    (h : World.Reachable w) :
    ∀ s ∈ w.subs, s.last_seen_version ≤ w.topic.version
      ∧ (s.last_seen_version < w.topic.version →
          w.topic.slot.isSome = true) := by
  induction h with
  | init name =>
    intro s hs
    simp at hs
  | @publish w m _ ih =>
    intro s hs
    have hmem : s ∈ w.subs := hs
    have hlen : 0 < w.subs.length := List.length_pos_of_mem hmem
    have hslot : (w.topic.publish w.subs.length m).slot = some m := by
      rw [publish_slot, if_pos hlen]
    refine ⟨le_trans (ih s hmem).1 (publish_version_le _ _ _), ?_⟩
    intro _
    rw [hslot]
    rfl
  | @subscribe w _ ih =>
    intro s hs
    rcases List.mem_cons.mp hs with rfl | hmem
    · exact ⟨Nat.le_refl _, fun hlt => absurd hlt (Nat.lt_irrefl _)⟩
    · exact ih s hmem
  | @dropSub w i _ ih =>
    intro s hs
    exact ih s ((List.eraseIdx_sublist w.subs i).subset hs)
  | @tryRead w i _ ih =>
    intro s hs
    rcases hgi : w.subs.get? i with _ | s0
    · have hw : w.tryRead i = w := by
        unfold World.tryRead
        rw [hgi]
      rw [hw] at hs ⊢
      exact ih s hs
    · have hw : w.tryRead i
          = { w with subs :=
              w.subs.set i ⟨(Sub.try_get_message (w.subView s0)).2.last_seen_version⟩ } := by
        unfold World.tryRead
        rw [hgi]
      rw [hw] at hs ⊢
      rcases List.mem_or_eq_of_mem_set hs with hmem | rfl
      · exact ih s hmem
      · have hs0 : s0 ∈ w.subs := List.get?_mem hgi
        simp only [Sub.try_get_message]
        rcases try_cursor_cases id (w.subView s0) with hcase | hcase
        · simp only [hcase]
          exact ih s0 hs0
        · simp only [hcase]
          exact ⟨Nat.le_refl _, fun hlt => absurd hlt (Nat.lt_irrefl _)⟩

/-! ### Claim theorems -/

/-- C2: `publish` advances the version counter by exactly 1 when it is
below `u64::MAX`, and leaves it unchanged at `u64::MAX` (saturating,
never wrapping); the counter starts at 0 and is monotonically
non-decreasing under publish (the only operation that writes it). -/
theorem version_counter_saturating_monotone (T : Type) (name : String)
    (t : Topic T) (k : Nat) (m : T) :
    (Topic.new T name).version = 0
    ∧ (t.version < UMAX → (t.publish k m).version = t.version + 1)
    ∧ (t.version = UMAX → (t.publish k m).version = UMAX)
    ∧ t.version ≤ (t.publish k m).version := by
  refine ⟨rfl, ?_, ?_, ?_⟩
  · intro h
    simp [Topic.publish, Topic.increment_version, h]
  · intro h
    simp [Topic.publish, Topic.increment_version, h]
  · by_cases h : t.version < UMAX <;>
      simp [Topic.publish, Topic.increment_version, h]

/-- Witness for C2: publishing at version 3 yields version 4. -/
theorem version_counter_saturating_monotone_w :
    ((⟨none, "t", 3⟩ : Topic Nat).publish 1 7).version = 3 + 1 :=
  (version_counter_saturating_monotone Nat "t" ⟨none, "t", 3⟩ 1 7).2.1 (by decide)

/-- C1: while the topic resolves, the non-blocking read returns `Ok` iff
the live version is strictly greater than `last_seen_version`, or the live
version equals `u64::MAX` while `last_seen_version` is below it; on
success `last_seen_version` is set to the live version; otherwise the
read reports the Empty error.  A subscriber made by `subscribe` captures
the topic's version as its baseline, so an immediate read yields Empty. -/
theorem try_read_succeeds_iff_version_advanced (T R : Type) (f : T → R)
    (s : SubState T) (hconn : (get_or_refresh_topic s.ref).1 = true) :
    ((∃ r, (Sub.try_get_message_impl f s).1 = Except.ok r) ↔
        (s.last_seen_version < s.liveVersion
          ∨ (s.liveVersion = UMAX ∧ s.last_seen_version < UMAX)))
    ∧ ((∃ r, (Sub.try_get_message_impl f s).1 = Except.ok r) →
        (Sub.try_get_message_impl f s).2.last_seen_version = s.liveVersion)
    ∧ (¬ (s.last_seen_version < s.liveVersion
          ∨ (s.liveVersion = UMAX ∧ s.last_seen_version < UMAX)) →
        (Sub.try_get_message_impl f s).1
            = Except.error BusError.message_queue_empty)
    ∧ (∀ (t : Topic T) (k : Nat), 1 ≤ k →
        (Sub.try_get_message (t.subscribe k)).1
            = Except.error BusError.message_queue_empty
        ∧ (t.subscribe k).last_seen_version = t.version) := by
  rcases hg : get_or_refresh_topic s.ref with ⟨b, ref1⟩
  rw [hg] at hconn
  simp only at hconn
  subst hconn
  refine ⟨⟨?_, ?_⟩, ?_, ?_, ?_⟩
  · rintro ⟨r, hr⟩
    exact (try_ok_elim hr).2
  · intro hcnd
    have hc : Sub.freshCond s.liveVersion s.last_seen_version := hcnd
    exact ⟨s.slotView.map f, by simp [Sub.try_get_message_impl, hg, hc]⟩
  · rintro ⟨r, hr⟩
    have hc : Sub.freshCond s.liveVersion s.last_seen_version := (try_ok_elim hr).2
    simp [Sub.try_get_message_impl, hg, hc]
  · intro hcnd
    have hc : ¬ Sub.freshCond s.liveVersion s.last_seen_version := hcnd
    simp [Sub.try_get_message_impl, hg, hc]
  · intro t k hk
    have hgr := get_or_refresh_live ⟨true, k⟩ hk
    have hnc : ¬ Sub.freshCond t.version t.version := by
      unfold Sub.freshCond
      omega
    refine ⟨?_, rfl⟩
    simp [Sub.try_get_message, Sub.try_get_message_impl, Topic.subscribe,
      Topic.get_current_version, hgr, hnc]

/-- Witness for C1: a freshly subscribed reader gets the Empty error. -/
theorem try_read_succeeds_iff_version_advanced_w :
    (Sub.try_get_message ((Topic.new Nat "t").subscribe 1)).1
        = Except.error BusError.message_queue_empty :=
  ((try_read_succeeds_iff_version_advanced Nat Nat id
      ⟨"t", 0, none, ⟨true, 1⟩, 0⟩ (by decide)).2.2.2
    (Topic.new Nat "t") 1 (by decide)).1

/-- C3: a subscriber whose cursor is `u64::MAX - 1` while the live version
is `u64::MAX` gets exactly one more successful read (the current value);
a further read on the unchanged topic yields the Empty error. -/
theorem saturation_plateau_single_delivery (T : Type) (s : SubState T)
    (h1 : s.last_seen_version = UMAX - 1) (h2 : s.liveVersion = UMAX)
    (hk : 1 ≤ s.ref.othersStrong) :
    (Sub.try_get_message s).1 = Except.ok s.slotView
    ∧ (Sub.try_get_message ((Sub.try_get_message s).2)).1
        = Except.error BusError.message_queue_empty := by
  have hgr := get_or_refresh_live s.ref hk
  have hc : Sub.freshCond s.liveVersion s.last_seen_version := by
    left
    rw [h1, h2]
    exact Nat.sub_lt (by decide) (by decide)
  have hfirst : Sub.try_get_message s
      = (Except.ok (s.slotView.map id),
         { s with ref := ⟨true, s.ref.othersStrong⟩,
                  last_seen_version := s.liveVersion }) := by
    simp [Sub.try_get_message, Sub.try_get_message_impl, hgr, hc]
  have hnc : ¬ Sub.freshCond s.liveVersion s.liveVersion := by
    unfold Sub.freshCond
    omega
  have hgr2 := get_or_refresh_live (⟨true, s.ref.othersStrong⟩ : SubRef) hk
  constructor
  · rw [hfirst]
    simp
  · rw [hfirst]
    simp [Sub.try_get_message, Sub.try_get_message_impl, hgr2, hnc]

/-- A concrete subscriber sitting just below the saturation plateau. -/
def satSub : SubState Nat := ⟨"t", UMAX - 1, some 9, ⟨true, 1⟩, UMAX⟩

/-- Witness for C3: the concrete plateau subscriber reads once, then Empty. -/
theorem saturation_plateau_single_delivery_w :
    (Sub.try_get_message satSub).1 = Except.ok (some 9)
    ∧ (Sub.try_get_message ((Sub.try_get_message satSub).2)).1
        = Except.error BusError.message_queue_empty :=
  saturation_plateau_single_delivery Nat satSub rfl rfl (by decide)

/-- C4: a publish with a live receiver overwrites (never queues) whatever
the slot held; hence after a non-empty publish sequence with no
intervening reads, the slot holds exactly the last message, and any
subscriber's next successful read of that slot returns exactly that last
value, never an earlier one.  The hypothesis that the last publish sees at
least one receiver is the claim's own premise: a subscriber whose read
succeeds must have subscribed before the last publish (otherwise its
baseline is the final version and the read is Empty), and its receiver is
alive from subscribe through the read. -/
theorem publish_coalesces_to_last (T : Type) (t : Topic T)
    (ps : List (Nat × T)) (h : ps ≠ []) (hlast : 1 ≤ (ps.getLast h).1) :
    (∀ (k : Nat) (m : T), 1 ≤ k → (t.publish k m).slot = some m)
    ∧ (t.publishSeq ps).slot = some (ps.getLast h).2
    ∧ ∀ (s : SubState T) (r : Option T),
        s.slotView = (t.publishSeq ps).slot →
        (Sub.try_get_message s).1 = Except.ok r →
        r = some (ps.getLast h).2 := by
  refine ⟨?_, publishSeq_slot_last t ps h hlast, ?_⟩
  · intro k m hk
    rw [publish_slot, if_pos (show 0 < k from hk)]
  · intro s r hview hr
    have hval := (try_ok_elim hr).1
    rw [hval, hview, publishSeq_slot_last t ps h hlast]
    rfl

/-- Witness for C4: after publishing 1 then 2, each to one live receiver,
the slot holds 2. -/
theorem publish_coalesces_to_last_w :
    (Topic.publishSeq (Topic.new Nat "t") [(1, 1), (1, 2)]).slot = some 2 :=
  (publish_coalesces_to_last Nat (Topic.new Nat "t") [(1, 1), (1, 2)]
    (by decide) (by decide)).2.1

/-- C5: once no strong owner of the topic remains besides the subscriber's
own cached reference, a non-blocking read clears the cache (destroying the
topic), fails to re-resolve the weak back-reference, and returns exactly
the Disconnected error (for any transform), never Empty or a value. -/
theorem sole_owner_read_disconnects (T : Type) (s : SubState T)
    (h : s.ref.othersStrong = 0) :
    (Sub.try_get_message s).1 = Except.error BusError.topic_disconnected
    ∧ (Sub.try_get_message s).2.ref = ⟨false, 0⟩
    ∧ (∀ (R : Type) (f : T → R),
        (Sub.try_get_message_impl f s).1
            = Except.error BusError.topic_disconnected)
    ∧ BusError.topic_disconnected.is_disconnected = true
    ∧ BusError.topic_disconnected.is_empty = false := by
  have hgd := get_or_refresh_dead s.ref h
  refine ⟨?_, ?_, ?_, rfl, rfl⟩
  · simp [Sub.try_get_message, Sub.try_get_message_impl, hgd]
  · simp [Sub.try_get_message, Sub.try_get_message_impl, hgd]
  · intro R f
    simp [Sub.try_get_message_impl, hgd]

/-- A concrete subscriber whose cached reference is the sole owner left. -/
def orphanSub : SubState Nat := ⟨"t", 4, some 9, ⟨true, 0⟩, 7⟩

/-- Witness for C5: the concrete orphaned subscriber reads Disconnected. -/
theorem sole_owner_read_disconnects_w :
    (Sub.try_get_message orphanSub).1
        = Except.error BusError.topic_disconnected :=
  (sole_owner_read_disconnects Nat orphanSub rfl).1

/-- C7: `last_seen_version` never decreases: the only assignment sets it
to the live version, which the success condition forces strictly above
the old cursor; and once the cursor has reached the live version, no read
reports a value as new again. -/
theorem cursor_never_decreases (T R : Type) (f : T → R) (s : SubState T) :
    s.last_seen_version ≤ (Sub.try_get_message_impl f s).2.last_seen_version
    ∧ ((∃ r, (Sub.try_get_message_impl f s).1 = Except.ok r) →
        s.last_seen_version < (Sub.try_get_message_impl f s).2.last_seen_version)
    ∧ (s.liveVersion ≤ s.last_seen_version →
        ∀ r, (Sub.try_get_message_impl f s).1 ≠ Except.ok r) := by
  rcases hg : get_or_refresh_topic s.ref with ⟨b, ref1⟩
  have hdecr : ∀ r, (Sub.try_get_message_impl f s).1 = Except.ok r →
      s.last_seen_version < (Sub.try_get_message_impl f s).2.last_seen_version := by
    intro r hr
    have hc := (try_ok_elim hr).2
    have hlt : s.last_seen_version < s.liveVersion := by
      rcases hc with hlt | ⟨heq, hlt⟩
      · exact hlt
      · omega
    cases b
    · simp [Sub.try_get_message_impl, hg] at hr
    · have hc2 : Sub.freshCond s.liveVersion s.last_seen_version := hc
      simp [Sub.try_get_message_impl, hg, hc2]
      exact hlt
  refine ⟨?_, ?_, ?_⟩
  · cases b
    · simp [Sub.try_get_message_impl, hg]
    · by_cases hc : Sub.freshCond s.liveVersion s.last_seen_version
      · have := hdecr (s.slotView.map f) (by simp [Sub.try_get_message_impl, hg, hc])
        omega
      · simp [Sub.try_get_message_impl, hg, hc]
  · rintro ⟨r, hr⟩
    exact hdecr r hr
  · intro hle r hr
    have hc := (try_ok_elim hr).2
    unfold Sub.freshCond at hc
    omega

/-- A concrete subscriber one version behind its live topic. -/
def behindSub : SubState Nat := ⟨"t", 0, some 5, ⟨true, 1⟩, 1⟩

/-- Witness for C7: a successful read strictly advances the cursor. -/
theorem cursor_never_decreases_w :
    (0 : Nat) < (Sub.try_get_message_impl id behindSub).2.last_seen_version :=
  (cursor_never_decreases Nat Nat id behindSub).2.1 ⟨some 5, rfl⟩

/-- C9: the peeks `get_latest`, `get_latest_with` and `has_latest` never
fail and leave the subscriber state (cursor and cached reference included)
unchanged; they read only the receiver's last-known channel value, so they
still answer after the topic is destroyed, where the non-blocking read
reports Disconnected. -/
theorem peeks_never_fail_never_mutate (T R : Type) (f : T → R)
    (s : SubState T) :
    Sub.get_latest s = (s.slotView, s)
    ∧ Sub.get_latest_with f s = (Option.map f s.slotView, s)
    ∧ Sub.has_latest s = (s.slotView.isSome, s)
    ∧ (s.ref.othersStrong = 0 →
        (Sub.try_get_message s).1 = Except.error BusError.topic_disconnected
        ∧ (Sub.get_latest s).1 = s.slotView
        ∧ (Sub.has_latest s).1 = s.slotView.isSome) := by
  refine ⟨rfl, rfl, rfl, ?_⟩
  intro h
  have hgd := get_or_refresh_dead s.ref h
  refine ⟨?_, rfl, rfl⟩
  simp [Sub.try_get_message, Sub.try_get_message_impl, hgd]

/-- Witness for C9: the concrete orphaned subscriber still peeks its value. -/
theorem peeks_never_fail_never_mutate_w :
    (Sub.get_latest orphanSub).1 = some 9
    ∧ (Sub.has_latest orphanSub).1 = true :=
  ⟨((peeks_never_fail_never_mutate Nat Nat id orphanSub).2.2.2 rfl).2.1,
   ((peeks_never_fail_never_mutate Nat Nat id orphanSub).2.2.2 rfl).2.2⟩

/-- The retain loop drops exactly the zero-subscriber entries and counts
them with saturating accumulation. -/
lemma cleanupGo_spec (l : List (String × BusEntry T)) (acc : Nat)
    (hacc : acc ≤ USIZE_MAX) :
    (Bus.cleanupGo l acc).1
        = min (acc + l.countP (fun p => p.2.subscriberCount == 0)) USIZE_MAX
    ∧ (Bus.cleanupGo l acc).2
        = l.filter (fun p => !(p.2.subscriberCount == 0)) := by
  induction l generalizing acc with
  | nil =>
    constructor
    · simp [Bus.cleanupGo]
      omega
    · simp [Bus.cleanupGo]
  | cons p rest ih =>
    by_cases h0 : p.2.subscriberCount = 0
    · have h0b : (p.2.subscriberCount == 0) = true := by simp [h0]
      have hsat : Bus.satSucc acc ≤ USIZE_MAX := Nat.min_le_right _ _
      have hgo : Bus.cleanupGo (p :: rest) acc
          = Bus.cleanupGo rest (Bus.satSucc acc) := by
        simp [Bus.cleanupGo, h0]
      rcases ih (Bus.satSucc acc) hsat with ⟨ih1, ih2⟩
      constructor
      · rw [hgo, ih1]
        simp [List.countP_cons, h0b, Bus.satSucc]
        omega
      · rw [hgo, ih2]
        simp [List.filter_cons, h0b]
    · have h0b : (p.2.subscriberCount == 0) = false := by simp [h0]
      have hgo : Bus.cleanupGo (p :: rest) acc
          = ((Bus.cleanupGo rest acc).1, p :: (Bus.cleanupGo rest acc).2) := by
        simp [Bus.cleanupGo, h0]
      rcases ih acc hacc with ⟨ih1, ih2⟩
      constructor
      · rw [hgo]
        simp only
        rw [ih1]
        simp [List.countP_cons, h0b]
      · rw [hgo]
        simp only
        rw [ih2]
        simp [List.filter_cons, h0b]

/-- C6: the cleanup sweep removes from the registry exactly the topics
whose subscriber count is zero at scan time, returns the number removed
(accumulated with saturating addition), and keeps every topic that still
has at least one subscriber. -/
theorem cleanup_removes_exactly_zero_subscriber_topics (T : Type) (b : Bus T) :
    (Bus.cleanup_unused_topics b).2.topics
        = b.topics.filter (fun p => !(p.2.subscriberCount == 0))
    ∧ (Bus.cleanup_unused_topics b).1
        = min (b.topics.countP (fun p => p.2.subscriberCount == 0)) USIZE_MAX
    ∧ ∀ p ∈ b.topics, 0 < p.2.subscriberCount →
        p ∈ (Bus.cleanup_unused_topics b).2.topics := by
  have hspec := cleanupGo_spec b.topics 0 (Nat.zero_le _)
  have h2 : (Bus.cleanup_unused_topics b).2.topics
      = b.topics.filter (fun p => !(p.2.subscriberCount == 0)) := by
    simpa [Bus.cleanup_unused_topics] using hspec.2
  refine ⟨h2, ?_, ?_⟩
  · simpa [Bus.cleanup_unused_topics] using hspec.1
  · intro p hp hpos
    rw [h2, List.mem_filter]
    refine ⟨hp, ?_⟩
    simp
    omega

/-- A concrete two-topic registry: one unused topic, one with subscribers. -/
def demoBus : Bus Nat :=
  ⟨[("a", ⟨Topic.new Nat "a", 0⟩), ("b", ⟨Topic.new Nat "b", 2⟩)]⟩

/-- Witness for C6: the subscribed topic survives the sweep. -/
theorem cleanup_removes_exactly_zero_subscriber_topics_w :
    ("b", (⟨Topic.new Nat "b", 2⟩ : BusEntry Nat))
        ∈ (Bus.cleanup_unused_topics demoBus).2.topics :=
  (cleanup_removes_exactly_zero_subscriber_topics Nat demoBus).2.2
    ("b", ⟨Topic.new Nat "b", 2⟩) (by decide) (by decide)

/-- C8: `remove_topic` returns the subscriber count observed at removal
time when the entry existed and `none` when absent; in the absent case
the registry is unchanged, and in the present case exactly the entries
under other names remain. -/
theorem remove_topic_returns_observed_count (T : Type) (b : Bus T)
    (name : String) :
    (Bus.remove_topic b name).1
        = Option.map (fun e => e.subscriberCount) (Bus.lookupTopic b.topics name)
    ∧ (Bus.lookupTopic b.topics name = none →
        Bus.remove_topic b name = (none, b))
    ∧ (∀ e, Bus.lookupTopic b.topics name = some e →
        (Bus.remove_topic b name).1 = some e.subscriberCount
        ∧ (∀ p ∈ (Bus.remove_topic b name).2.topics,
            ¬ p.1 = name ∧ p ∈ b.topics)
        ∧ (∀ p ∈ b.topics, ¬ p.1 = name →
            p ∈ (Bus.remove_topic b name).2.topics)) := by
  refine ⟨?_, ?_, ?_⟩
  · cases h : Bus.lookupTopic b.topics name <;> simp [Bus.remove_topic, h]
  · intro h
    simp [Bus.remove_topic, h]
  · intro e he
    refine ⟨by simp [Bus.remove_topic, he], ?_, ?_⟩
    · intro p hp
      simp only [Bus.remove_topic, he, List.mem_filter] at hp
      refine ⟨?_, hp.1⟩
      simpa using hp.2
    · intro p hp hne
      simp only [Bus.remove_topic, he, List.mem_filter]
      exact ⟨hp, by simpa using hne⟩

/-- Witness for C8: removing the subscribed demo topic reports 2. -/
theorem remove_topic_returns_observed_count_w :
    (Bus.remove_topic demoBus "b").1 = some 2 :=
  ((remove_topic_returns_observed_count Nat demoBus "b").2.2
    ⟨Topic.new Nat "b", 2⟩ (by decide)).1

/-- C10: in every world reachable through the public API, a non-blocking
read that returns `Ok` carries `Some` message: the success condition
forces a positive live version, which only a publish can produce, and
publish always stores a message, so the `Ok(None)` branch is unreachable. -/
theorem reachable_try_ok_carries_message (T : Type) (w : World T)
    (hw : World.Reachable w) (s : WSub) (hs : s ∈ w.subs) (r : Option T)
    (hr : (Sub.try_get_message (w.subView s)).1 = Except.ok r) :
    r.isSome = true := by
  have hval := try_ok_elim hr
  have hc : Sub.freshCond w.topic.version s.last_seen_version := hval.2
  have hlt : s.last_seen_version < w.topic.version := by
    unfold Sub.freshCond at hc
    omega
  have hsome := (reachable_cursor_slot_inv hw s hs).2 hlt
  rw [hval.1]
  simpa [World.subView] using hsome

/-- Witness for C10: in the world reached by subscribe-then-publish (the
publish seeing the one live receiver), the successful read carries a
message. -/
theorem reachable_try_ok_carries_message_w :
    (some 5 : Option Nat).isSome = true :=
  reachable_try_ok_carries_message Nat ⟨(Topic.new Nat "t").publish 1 5, [⟨0⟩]⟩
    (World.Reachable.publish 5 (World.Reachable.subscribe (World.Reachable.init "t")))
    ⟨0⟩ (by decide) (some 5) rfl

end Dropslot
